import Mathlib

/-!
Verification development for the NexusValet dispatch engine and peer-identity
resolution subsystem.  The definitions below are a shallow embedding of the Go
source: the event bus and hook manager from internal/session/session.go
(package core), the command parser from internal/plugin/builtin_plugins.go
(package command), the plugin manager from internal/plugin/manager.go, and the
access-hash manager from internal/plugin/access_hash_manager.go.  Handler
closures are abstracted by their observable outcome (success, error message,
or panic payload); network calls are abstracted by an environment record
giving each API method's response for the scenario under study; Go maps are
modelled as functions into Option.
-/

namespace NexusValet

/-! ## Event bus (session.go, package core: EventDispatcher) -/

/-- ListenerType mirrors the Go constants MessageListener / RawListener /
CommandListener. -/
inductive ListenerType
  | message
  | raw
  | command
deriving DecidableEq, Repr

/-- ListenerFilter mirrors the Go struct of the same name (GroupsOnly,
PrivatesOnly, Outgoing, Incoming, SudoOnly). -/
structure ListenerFilter where
  groupsOnly : Bool
  privatesOnly : Bool
  outgoing : Bool
  incoming : Bool
  sudoOnly : Bool
deriving DecidableEq, Repr

/-- The fragment of tg.Message that the dispatcher reads: the Out flag. -/
structure TgMessage where
  out : Bool
deriving DecidableEq, Repr

/-- MessageEvent mirrors the Go struct: Update is irrelevant to dispatch and
omitted; Message is a possibly-nil pointer, hence an Option. -/
structure MessageEvent where
  message : Option TgMessage
  text : String
  userID : Int
  chatID : Int

/-- CommandEvent mirrors the Go struct (Command, Args, Message).  The parser
always fills the Message pointer, so it is modelled as a plain field. -/
structure CommandEvent where
  command : String
  args : List String
  messageEvent : MessageEvent

/-- The dynamic event value handed to dispatch (Go passes an interface value;
other is any non-message, non-command payload). -/
inductive Event
  | message (m : MessageEvent)
  | command (c : CommandEvent)
  | other

/-- Listener mirrors the Go struct.  The regex Pattern is abstracted to a
match predicate on the text; the Prefix field is renamed prefixStr; the
handler closure is abstracted by whether it returns an error (handlerFails). -/
structure Listener where
  type : ListenerType
  pattern : Option (String → Bool)
  prefixStr : String
  command : String
  priority : Int
  name : String
  filter : Option ListenerFilter
  handlerFails : Bool

/-- The dispatcher's listeners map (Go: map from ListenerType to a slice). -/
def Registry := ListenerType → List Listener

/-- NewEventDispatcher: the empty listeners map. -/
def emptyDispatcher : Registry := fun _ => []

/-- passesFilter (session.go): non-message events always pass; a message is
checked against the group/private selection on the sign of the chat id, then
against the Outgoing/Incoming selection on Message.Out (a nil Message counts
as not outgoing).  SudoOnly is a TODO in the source and checked nowhere. -/
def passesFilter (f : ListenerFilter) (ev : Event) : Bool :=
  match ev with
  | .message m =>
      let isGroup : Bool := decide (m.chatID < 0)
      if f.groupsOnly && !isGroup then false
      else if f.privatesOnly && isGroup then false
      else
        let isOutgoing : Bool :=
          match m.message with
          | some msg => msg.out
          | none => false
        if f.outgoing && !isOutgoing then false
        else if f.incoming && isOutgoing then false
        else true
  | _ => true

/-- shouldHandleEvent (session.go): raw listeners only consult the filter;
message listeners first consult the filter, then the regex pattern if set,
else the prefix if nonempty, else accept; command listeners consult the
filter against the underlying message and then compare the command name. -/
def shouldHandleEvent (l : Listener) (ev : Event) : Bool :=
  match l.type with
  | .raw =>
      match l.filter with
      | some f => passesFilter f ev
      | none => true
  | .message =>
      match ev with
      | .message m =>
          (match l.filter with
           | some f => passesFilter f ev
           | none => true) &&
          (match l.pattern with
           | some p => p m.text
           | none =>
              if l.prefixStr ≠ "" then l.prefixStr.isPrefixOf m.text else true)
      | _ => false
  | .command =>
      match ev with
      | .command c =>
          (match l.filter with
           | some f => passesFilter f (.message c.messageEvent)
           | none => true) &&
          (l.command == c.command)
      | _ => false

/-- The insertion step of addListener (session.go): the new listener is
appended at the end of the slice and then repeatedly swapped with its
predecessor while its Priority is strictly greater, stopping at the first
predecessor with greater-or-equal priority.  Equivalently it is inserted in
front of the longest suffix whose priorities are all strictly smaller. -/
def bubbleInsert (ls : List Listener) (x : Listener) : List Listener :=
  ((ls.reverse.dropWhile (fun a => decide (a.priority < x.priority))).reverse)
    ++ x :: ((ls.reverse.takeWhile (fun a => decide (a.priority < x.priority))).reverse)

/-- addListener (session.go): insert into the slice of the listener's type. -/
def addListener (ed : Registry) (x : Listener) : Registry :=
  fun t => if t = x.type then bubbleInsert (ed t) x else ed t

/-- UnregisterListener removes the first listener with the given name from
the slice of the given type (a no-op when absent). -/
def removeFirstByName : List Listener → String → List Listener
  | [], _ => []
  | l :: rest, n => if l.name = n then rest else l :: removeFirstByName rest n

/-- UnregisterListener (session.go). -/
def unregisterListener (ed : Registry) (t : ListenerType) (n : String) : Registry :=
  fun t' => if t' = t then removeFirstByName (ed t') n else ed t'

/-- Pattern-compilation failure of RegisterMessageListener (Go: the error
from regexp.Compile). -/
inductive RegexError
  | badPattern
deriving DecidableEq, Repr

/-- RegisterMessageListener (session.go): a nonempty pattern is compiled
(compilation is abstracted by the cmp argument) and a failure is returned to
the caller; otherwise a message listener is built and addListener is called.
Note there is no duplicate-name check anywhere on this path. -/
def registerMessageListener (cmp : String → Option (String → Bool)) (ed : Registry)
    (nm : String) (pat : String) (hf : Bool) (priority : Int) :
    Except RegexError Registry :=
  if pat ≠ "" then
    match cmp pat with
    | none => .error .badPattern
    | some rx =>
        .ok (addListener ed ⟨.message, some rx, "", "", priority, nm, none, hf⟩)
  else
    .ok (addListener ed ⟨.message, none, "", "", priority, nm, none, hf⟩)

/-- RegisterPrefixListenerWithFilter (session.go). -/
def registerPrefixListenerWithFilter (ed : Registry) (nm pfx : String) (hf : Bool)
    (priority : Int) (f : ListenerFilter) : Registry :=
  addListener ed ⟨.message, none, pfx, "", priority, nm, some f, hf⟩

/-- The only error dispatchToListeners itself can return is the cancellation
error of the caller's context (listener errors are logged, not returned). -/
inductive DispatchErr
  | cancelled
deriving DecidableEq, Repr

/-- Context cancellation is modelled by the loop-iteration count at which the
Done channel becomes ready: the select in the source observes it at every
iteration whose running counter k satisfies c ≤ k. -/
def ctxDone (cancelAt : Option Nat) (k : Nat) : Bool :=
  match cancelAt with
  | some c => decide (c ≤ k)
  | none => false

/-- The observable outcome of one dispatchToListeners call: the returned
error, the names of the listeners whose handler was invoked in order, and the
names logged by logger.Errorf for handlers that returned an error. -/
structure DispatchOut where
  result : Except DispatchErr Unit
  trace : List String
  errLog : List String
deriving Repr

/-- The loop of dispatchToListeners (session.go): at every iteration the
context is polled first; a cancelled context aborts with ctx.Err(); otherwise
a matching listener's handler is invoked and an error return is logged and
iteration continues.  k is the running iteration counter against which
cancellation is interpreted; the final counter is returned for chaining. -/
def dispatchLoop (cancelAt : Option Nat) (ev : Event) : Nat → List Listener →
    DispatchOut × Nat
  | k, [] => (⟨.ok (), [], []⟩, k)
  | k, l :: rest =>
      if ctxDone cancelAt k then (⟨.error .cancelled, [], []⟩, k)
      else
        let r := dispatchLoop cancelAt ev (k + 1) rest
        if shouldHandleEvent l ev then
          (⟨r.1.result, l.name :: r.1.trace,
            (if l.handlerFails then [l.name] else []) ++ r.1.errLog⟩, r.2)
        else
          (⟨r.1.result, r.1.trace, r.1.errLog⟩, r.2)

/-- dispatchToListeners (session.go) on the slice of the given type. -/
def dispatchToListeners (cancelAt : Option Nat) (ed : Registry) (t : ListenerType)
    (ev : Event) : DispatchOut :=
  (dispatchLoop cancelAt ev 0 (ed t)).1

/-- DispatchMessage (session.go): raw listeners first; a (cancellation) error
there is returned at once, otherwise the message listeners run with the same
context. -/
def dispatchMessage (cancelAt : Option Nat) (ed : Registry) (m : MessageEvent) :
    DispatchOut :=
  let r1 := dispatchLoop cancelAt (.message m) 0 (ed .raw)
  match r1.1.result with
  | .error e => ⟨.error e, r1.1.trace, r1.1.errLog⟩
  | .ok _ =>
      let r2 := dispatchLoop cancelAt (.message m) r1.2 (ed .message)
      ⟨r2.1.result, r1.1.trace ++ r2.1.trace, r1.1.errLog ++ r2.1.errLog⟩

/-! ## Hook manager (session.go, package core: HookManager) -/

/-- HookType mirrors the Go constants. -/
inductive HookType
  | beforeStart
  | afterStart
  | beforeStop
  | afterStop
  | beforeCommand
  | afterCommand
  | onError
deriving DecidableEq, Repr

/-- Hook mirrors the Go struct; the handler closure is abstracted by its
outcome res (none = success, some msg = the error it returns). -/
structure Hook where
  type : HookType
  priority : Int
  name : String
  res : Option String
deriving DecidableEq, Repr

/-- The hooks map of the HookManager. -/
def HookState := HookType → List Hook

/-- RegisterHook (session.go): append then sort the phase's slice by
priority, highest first.  The Go code uses the unstable sort.Slice; any sort
that orders by descending priority is a faithful model of its guarantee. -/
def registerHook (hm : HookState) (h : Hook) : HookState :=
  fun t =>
    if t = h.type then (hm t ++ [h]).mergeSort (fun a b => decide (b.priority ≤ a.priority))
    else hm t

/-- The error returned by ExecuteHooksWithContext: the context cancellation
error, or the error of the first failing handler. -/
inductive HookErr
  | cancelled
  | failed (msg : String)
deriving DecidableEq, Repr

/-- The payload the source builds for the one-shot on-error chain:
original_hook_type, hook_name and error. -/
structure ErrorPayload where
  originalHookType : HookType
  hookName : String
  errMsg : String
deriving DecidableEq, Repr

/-- The observable outcome of a hook-chain execution: the returned value, the
(phase, hook-name) invocations in order, the payloads with which the on-error
chain was triggered, and the final iteration counter for cancellation. -/
structure HookRun where
  result : Except HookErr Unit
  trace : List (HookType × String)
  errorRuns : List ErrorPayload
  kEnd : Nat
deriving Repr

/-- The behavior of ExecuteHooksWithContext when invoked on the OnError
phase: a plain priority-ordered chain that short-circuits on the first
failure and, because its phase is already OnError, never re-triggers the
error chain.  This is exactly the recursive call the source makes after a
failure. -/
def runChain (cancelAt : Option Nat) (ht : HookType) : Nat → List Hook → HookRun
  | k, [] => ⟨.ok (), [], [], k⟩
  | k, h :: rest =>
      if ctxDone cancelAt k then ⟨.error .cancelled, [], [], k⟩
      else
        match h.res with
        | none =>
            let r := runChain cancelAt ht (k + 1) rest
            ⟨r.result, (ht, h.name) :: r.trace, r.errorRuns, r.kEnd⟩
        | some e => ⟨.error (.failed e), [(ht, h.name)], [], k + 1⟩

/-- The loop of ExecuteHooksWithContext over one phase's slice.  onErrHooks
is the slice registered for the OnError phase.  On the first handler failure,
if the running phase is not OnError the source re-enters
ExecuteHooksWithContext on the OnError phase with the error payload (that
inner call cannot recurse further since its phase is OnError, so it equals
runChain; the lemma executeHooks_onError_eq_runChain certifies this), ignores
its result, and returns the original error. -/
def execHooksList (cancelAt : Option Nat) (onErrHooks : List Hook) (ht : HookType) :
    Nat → List Hook → HookRun
  | k, [] => ⟨.ok (), [], [], k⟩
  | k, h :: rest =>
      if ctxDone cancelAt k then ⟨.error .cancelled, [], [], k⟩
      else
        match h.res with
        | none =>
            let r := execHooksList cancelAt onErrHooks ht (k + 1) rest
            ⟨r.result, (ht, h.name) :: r.trace, r.errorRuns, r.kEnd⟩
        | some e =>
            if ht = .onError then ⟨.error (.failed e), [(ht, h.name)], [], k + 1⟩
            else
              let inner := runChain cancelAt .onError (k + 1) onErrHooks
              ⟨.error (.failed e), (ht, h.name) :: inner.trace,
                ⟨ht, h.name, e⟩ :: inner.errorRuns, inner.kEnd⟩

/-- ExecuteHooksWithContext (session.go). -/
def executeHooksWithContext (cancelAt : Option Nat) (hm : HookState) (ht : HookType)
    (k : Nat) : HookRun :=
  execHooksList cancelAt (hm .onError) ht k (hm ht)

/-- ExecuteHooks (session.go) uses context.Background(), which is never
cancelled. -/
def executeHooks (hm : HookState) (ht : HookType) : HookRun :=
  executeHooksWithContext none hm ht 0

/-! ## Command parser (builtin_plugins.go, package command: Parser) -/

/-- The observable outcome of a command handler closure: normal return (nil
or an error) or a runtime panic with the given payload. -/
inductive HandlerOutcome
  | ok
  | fail (msg : String)
  | panics (payload : String)
deriving DecidableEq, Repr

/-- Command mirrors the Go struct (Name, Description, Plugin, Handler); the
handler closure is abstracted by its outcome. -/
structure Command where
  name : String
  description : String
  plugin : String
  outcome : HandlerOutcome
deriving DecidableEq, Repr

/-- The commands map of the Parser. -/
def Cmds := String → Option Command

/-- RegisterCommand (builtin_plugins.go): a later registration with the same
name overwrites. -/
def registerCommand (m : Cmds) (c : Command) : Cmds :=
  fun n => if n = c.name then some c else m n

/-- UnregisterCommand (builtin_plugins.go). -/
def unregisterCommand (m : Cmds) (nm : String) : Cmds :=
  fun n => if n = nm then none else m n

/-- UnregisterPluginCommands (builtin_plugins.go): delete every command whose
Plugin field equals the given plugin name. -/
def unregisterPluginCommands (m : Cmds) (pl : String) : Cmds :=
  fun n =>
    match m n with
    | some c => if c.plugin = pl then none else some c
    | none => none

/-- The message produced by the recovery boundary in executeCommand
(fmt.Errorf of command panicked with the recovered value). -/
def commandPanicMsg (payload : String) : String := "command panicked: " ++ payload

/-- The executeErr value of executeCommand: the handler's returned error, or
the panic converted to an error by the deferred recover. -/
def runHandler : HandlerOutcome → Option String
  | .ok => none
  | .fail msg => some msg
  | .panics payload => some (commandPanicMsg payload)

/-- The error executeCommand returns: the BeforeCommand chain's error
(propagated before the handler is invoked) or the handler's own error. -/
inductive CmdErr
  | beforeHook (e : HookErr)
  | handlerFailed (msg : String)
deriving DecidableEq, Repr

/-- The observable outcome of one executeCommand call: the returned error (an
unknown command returns nil), whether the handler was invoked, the payload
handed to the AfterCommand chain (some executeErr if and only if that chain
ran), and the invocation traces of the two hook chains. -/
structure CmdRun where
  result : Option CmdErr
  handlerInvoked : Bool
  afterPayload : Option (Option String)
  beforeTrace : List (HookType × String)
  afterTrace : List (HookType × String)
deriving Repr

/-- executeCommand (builtin_plugins.go): an unknown command is silently
ignored; the BeforeCommand chain runs first and its failure is returned
without invoking the handler; otherwise the handler runs inside the recover
boundary, the AfterCommand chain runs with the handler's error in its payload
regardless of success, an AfterCommand failure is only logged, and the
handler's own error is returned.  Session loading and the context fields are
external collaborators and are not modelled. -/
def executeCommand (cancelAt : Option Nat) (hm : HookState) (cmds : Cmds)
    (commandName : String) : CmdRun :=
  match cmds commandName with
  | none => ⟨none, false, none, [], []⟩
  | some cmd =>
      let before := executeHooksWithContext cancelAt hm .beforeCommand 0
      match before.result with
      | .error e => ⟨some (.beforeHook e), false, none, before.trace, []⟩
      | .ok _ =>
          let executeErr := runHandler cmd.outcome
          let after := executeHooksWithContext cancelAt hm .afterCommand before.kEnd
          ⟨executeErr.map .handlerFailed, true, some executeErr,
            before.trace, after.trace⟩

/-- The listener filter NewParser and SetPrefix install for the
command_parser listener: Outgoing true, Incoming false, all else unset. -/
def parserFilter : ListenerFilter := ⟨false, false, true, false, false⟩

/-- The message listener NewParser registers (RegisterPrefixListenerWithFilter
with name command_parser, the configured prefix, and priority 100).  hf
abstracts the outcome of the handleMessage closure. -/
def parserListener (pfx : String) (hf : Bool) : Listener :=
  ⟨.message, none, pfx, "", 100, "command_parser", some parserFilter, hf⟩

/-- NewParser (builtin_plugins.go): the effect on the event dispatcher is the
registration of the command_parser prefix listener. -/
def newParserRegistry (pfx : String) (hf : Bool) (ed : Registry) : Registry :=
  addListener ed (parserListener pfx hf)

/-! ## Plugin manager (manager.go: Manager) -/

/-- The state UnloadPlugin acts on: the loaded-plugins map (abstracted to the
Enabled flag), together with the shared listener, hook, and command
registries. -/
structure PMState where
  plugins : String → Option Bool
  listeners : Registry
  hooks : HookState
  commands : Cmds

/-- UnloadPlugin (manager.go): fails when the plugin is unknown; otherwise it
closes the plugin's Lua state (external), calls
parser.UnregisterPluginCommands, and marks the plugin disabled.  It performs
no operation on the event dispatcher or the hook manager. -/
def unloadPlugin (st : PMState) (nm : String) : Except String PMState :=
  match st.plugins nm with
  | none => .error "plugin not found"
  | some _ =>
      .ok { st with
        commands := unregisterPluginCommands st.commands nm,
        plugins := fun n => if n = nm then some false else st.plugins n }

/-! ## Access-hash manager (access_hash_manager.go: AccessHashManager)

Network calls are abstracted by an environment record holding the outcome of
each Telegram API method for the scenario under study; the call trace lists
which methods were actually invoked.  The optional persistence layer degrades
to cache-only operation and is not modelled. -/

/-- The fragment of tg.User the manager reads. -/
structure TgUser where
  id : Int
  accessHash : Int
  username : String
  firstName : String
  lastName : String
deriving DecidableEq, Repr

/-- UserInfo mirrors the Go struct; UpdatedAt is a timestamp in seconds. -/
structure UserInfo where
  id : Int
  accessHash : Int
  username : String
  firstName : String
  lastName : String
  updatedAt : Nat
deriving DecidableEq, Repr

/-- The cache expiry window (12 hours), in seconds. -/
def cacheExpiry : Nat := 12 * 60 * 60

/-- The mutable state of the AccessHashManager: the user cache and the
per-user consecutive-failure counters (a missing map entry reads as 0). -/
structure AhmState where
  userCache : Int → Option UserInfo
  failureCount : Int → Nat

/-- The API methods the resolution strategies may invoke. -/
inductive ApiCall
  | usersGetUsers
  | messagesGetDialogs (limit : Nat)
  | contactsGetContacts
  | contactsSearch
  | channelsGetParticipant
  | channelsGetParticipants
  | channelsGetChannels
deriving DecidableEq, Repr

/-- The environment a user-resolution scenario runs against: the outcome of
each API method (an error, or the list of users in the response). -/
structure ApiEnv where
  usersGetUsers : Except String (List TgUser)
  dialogUsers : Except String (List TgUser)
  contacts : Except String (List TgUser)
  searchUsers : Except String (List TgUser)
  participantUsers : Except String (List TgUser)
  channelParticipantUsers : Except String (List TgUser)

/-- The UserInfo built by cacheUser from a tg.User at the current time. -/
def mkUserInfo (u : TgUser) (now : Nat) : UserInfo :=
  ⟨u.id, u.accessHash, u.username, u.firstName, u.lastName, now⟩

/-- cacheUser (access_hash_manager.go): write-through into the in-memory map
with the current time as UpdatedAt. -/
def cacheUser (st : AhmState) (u : TgUser) (now : Nat) : AhmState :=
  { st with userCache := fun i => if i = u.id then some (mkUserInfo u now) else st.userCache i }

/-- getCachedUser (access_hash_manager.go): a stale record (now minus
UpdatedAt beyond the expiry window) reads as absent. -/
def getCachedUser (st : AhmState) (now : Nat) (uid : Int) : Option UserInfo :=
  match st.userCache uid with
  | none => none
  | some u => if cacheExpiry < now - u.updatedAt then none else some u

/-- Scanning an API response for the target user: an error yields nothing,
otherwise the first user with the matching ID. -/
def pickUser (r : Except String (List TgUser)) (uid : Int) : Option TgUser :=
  match r with
  | .ok us => us.find? (fun u => u.id = uid)
  | .error _ => none

/-- Method 1 of fetchAndCacheUser takes users[0] of the UsersGetUsers
response without comparing its ID to the requested one. -/
def firstUser : Except String (List TgUser) → Option TgUser
  | .ok (u :: _) => some u
  | _ => none

/-- The errors of the resolution paths (the Go source formats human-readable
strings; they are modelled as tagged values). -/
inductive ResolveErr
  | allMethodsFailed (uid : Int)
  | noHash (uid : Int)
  | tooManyFailures (uid : Int)
  | noValidHash (uid : Int)
deriving DecidableEq, Repr

/-- fetchAndCacheUser (access_hash_manager.go): try UsersGetUsers, then the
dialog list (limit 200), then the contact list, then ContactsSearch; an error
or a miss in one method only moves on to the next; the first hit is cached
and returned; exhausting all four returns an error. -/
def fetchAndCacheUser (env : ApiEnv) (now : Nat) (st : AhmState) (uid : Int) :
    Except ResolveErr UserInfo × AhmState × List ApiCall :=
  match firstUser env.usersGetUsers with
  | some u => (.ok (mkUserInfo u now), cacheUser st u now, [.usersGetUsers])
  | none =>
    match pickUser env.dialogUsers uid with
    | some u => (.ok (mkUserInfo u now), cacheUser st u now,
        [.usersGetUsers, .messagesGetDialogs 200])
    | none =>
      match pickUser env.contacts uid with
      | some u => (.ok (mkUserInfo u now), cacheUser st u now,
          [.usersGetUsers, .messagesGetDialogs 200, .contactsGetContacts])
      | none =>
        match pickUser env.searchUsers uid with
        | some u => (.ok (mkUserInfo u now), cacheUser st u now,
            [.usersGetUsers, .messagesGetDialogs 200, .contactsGetContacts, .contactsSearch])
        | none => (.error (.allMethodsFailed uid), st,
            [.usersGetUsers, .messagesGetDialogs 200, .contactsGetContacts, .contactsSearch])

/-- InputPeerUser: the addressed-peer handle for a user. -/
structure InputPeerUser where
  userID : Int
  accessHash : Int
deriving DecidableEq, Repr

/-- GetUserPeer (access_hash_manager.go): a valid cached record is returned
without any network call; otherwise fetchAndCacheUser runs and its failure is
wrapped. -/
def getUserPeer (env : ApiEnv) (now : Nat) (st : AhmState) (uid : Int) :
    Except ResolveErr InputPeerUser × AhmState × List ApiCall :=
  match getCachedUser st now uid with
  | some u => (.ok ⟨u.id, u.accessHash⟩, st, [])
  | none =>
      match fetchAndCacheUser env now st uid with
      | (.ok ui, st', calls) => (.ok ⟨ui.id, ui.accessHash⟩, st', calls)
      | (.error _, st', calls) => (.error (.noHash uid), st', calls)

/-- resetFailureCount (access_hash_manager.go): delete the counter entry. -/
def resetFailureCount (st : AhmState) (uid : Int) : AhmState :=
  { st with failureCount := fun i => if i = uid then 0 else st.failureCount i }

/-- incrementFailureCount (access_hash_manager.go). -/
def incrementFailureCount (st : AhmState) (uid : Int) : AhmState :=
  { st with failureCount := fun i => if i = uid then st.failureCount i + 1 else st.failureCount i }

/-- ClearUserCache (access_hash_manager.go): drop the cached record and reset
the failure counter (and delete the durable row when persistence is on). -/
def clearUserCache (st : AhmState) (uid : Int) : AhmState :=
  resetFailureCount { st with userCache := fun i => if i = uid then none else st.userCache i } uid

/-- GetUserPeerWithFallback (access_hash_manager.go): a failure count of 3 or
more fails fast with the too-many-failures error and no network call; then
the standard lookup, the group-participant lookup, and the channel-member
search are tried in order (the last two only when a channel context is
given), each success caching the user and resetting the counter; exhaustion
increments the counter and returns an error rather than a zero access hash. -/
def getUserPeerWithFallback (env : ApiEnv) (now : Nat) (st : AhmState) (uid : Int)
    (hasChannelPeer : Bool) : Except ResolveErr InputPeerUser × AhmState × List ApiCall :=
  if 3 ≤ st.failureCount uid then (.error (.tooManyFailures uid), st, [])
  else
    match getUserPeer env now st uid with
    | (.ok p, st1, calls1) => (.ok p, resetFailureCount st1 uid, calls1)
    | (.error _, st1, calls1) =>
        if hasChannelPeer then
          match pickUser env.participantUsers uid with
          | some u => (.ok ⟨u.id, u.accessHash⟩,
              resetFailureCount (cacheUser st1 u now) uid,
              calls1 ++ [.channelsGetParticipant])
          | none =>
            match pickUser env.channelParticipantUsers uid with
            | some u => (.ok ⟨u.id, u.accessHash⟩,
                resetFailureCount (cacheUser st1 u now) uid,
                calls1 ++ [.channelsGetParticipant, .channelsGetParticipants])
            | none => (.error (.noValidHash uid), incrementFailureCount st1 uid,
                calls1 ++ [.channelsGetParticipant, .channelsGetParticipants])
        else
          (.error (.noValidHash uid), incrementFailureCount st1 uid, calls1)

/-- The fragment of tg.Channel the channel-resolution path reads. -/
structure TgChannel where
  id : Int
  accessHash : Int
deriving DecidableEq, Repr

/-- InputPeerChannel: the addressed-peer handle for a channel. -/
structure InputPeerChannel where
  channelID : Int
  accessHash : Int
deriving DecidableEq, Repr

/-- The environment a channel-resolution scenario runs against. -/
structure ChannelEnv where
  channelsGetChannels : Except String (List TgChannel)
  dialogChats100 : Except String (List TgChannel)
  dialogChats500 : Except String (List TgChannel)

/-- searchChannelInDialogs (access_hash_manager.go): scan the chats of a
dialog response for the channel with the given ID. -/
def searchChannelInDialogs (chats : List TgChannel) (cid : Int) : Option InputPeerChannel :=
  (chats.find? (fun c => c.id = cid)).map (fun c => ⟨c.id, c.accessHash⟩)

/-- Scanning a chats response: an error yields nothing. -/
def pickChannel (r : Except String (List TgChannel)) (cid : Int) : Option InputPeerChannel :=
  match r with
  | .ok cs => searchChannelInDialogs cs cid
  | .error _ => none

/-- The error of the channel-resolution path. -/
inductive ChanResolveErr
  | channelNotFound (cid : Int)
deriving DecidableEq, Repr

/-- getChannelPeer (access_hash_manager.go): method 1 is ChannelsGetChannels
with a zero access hash; method 2 is a dialog-list scan with limit 100 whose
API error is remembered as derr; method 3, the extended scan with limit 500,
is guarded by derr == nil, so it runs only when the limit-100 call itself
succeeded (without finding the channel). -/
def getChannelPeer (env : ChannelEnv) (cid : Int) :
    Except ChanResolveErr InputPeerChannel × List ApiCall :=
  match pickChannel env.channelsGetChannels cid with
  | some p => (.ok p, [.channelsGetChannels])
  | none =>
    match env.dialogChats100 with
    | .ok cs =>
        match searchChannelInDialogs cs cid with
        | some p => (.ok p, [.channelsGetChannels, .messagesGetDialogs 100])
        | none =>
            match env.dialogChats500 with
            | .ok cs2 =>
                match searchChannelInDialogs cs2 cid with
                | some p => (.ok p,
                    [.channelsGetChannels, .messagesGetDialogs 100, .messagesGetDialogs 500])
                | none => (.error (.channelNotFound cid),
                    [.channelsGetChannels, .messagesGetDialogs 100, .messagesGetDialogs 500])
            | .error _ => (.error (.channelNotFound cid),
                [.channelsGetChannels, .messagesGetDialogs 100, .messagesGetDialogs 500])
    | .error _ => (.error (.channelNotFound cid),
        [.channelsGetChannels, .messagesGetDialogs 100])

/-! ## Concrete scenario data used by witnesses and counterexamples -/

/-- The descending-priority order addListener maintains. -/
def prioGe (a b : Listener) : Prop := b.priority ≤ a.priority

/-- A registry every category of which is sorted by priority descending. -/
def sortedRegistry (ed : Registry) : Prop := ∀ t, (ed t).Pairwise prioGe

/-- The loop-iteration index past which no listener is processed: the whole
list when the context is never cancelled, the cancellation point otherwise. -/
def ctxCutoff (cancelAt : Option Nat) (len : Nat) : Nat :=
  match cancelAt with
  | none => len
  | some c => c

/-- A filter with no flags set at all. -/
def cxFilter : ListenerFilter := ⟨false, false, false, false, false⟩

/-- An incoming private message (Message.Out is false) whose text carries the
command prefix. -/
def cxIncoming : MessageEvent := ⟨some ⟨false⟩, ".status", 7, 42⟩

/-- A message listener with the no-flags filter and no matcher. -/
def cxListener : Listener := ⟨.message, none, "", "", 0, "nodir", some cxFilter, false⟩

/-- A message listener of priority 2 named B. -/
def wListenerHi : Listener := ⟨.message, none, "", "", 2, "B", none, false⟩

/-- A message listener of priority 1 named A. -/
def wListenerLo : Listener := ⟨.message, none, "", "", 1, "A", none, false⟩

/-- An outgoing message event. -/
def wOutEvent : Event := .message ⟨some ⟨true⟩, "hi", 1, 1⟩

/-- A message listener registered by the plugin named x. -/
def cxXListener : Listener := ⟨.message, none, "", "", 0, "x_listener", none, false⟩

/-- A BeforeCommand hook registered by the plugin named x. -/
def cxXHook : Hook := ⟨.beforeCommand, 0, "x_hook", none⟩

/-- A command owned by the plugin named x. -/
def cxXCommand : Command := ⟨"xcmd", "", "x", .ok⟩

/-- A manager state in which plugin x is loaded and owns one listener, one
hook, and one command. -/
def cxPMState : PMState :=
  { plugins := fun n => if n = "x" then some true else none,
    listeners := addListener emptyDispatcher cxXListener,
    hooks := fun t => if t = .beforeCommand then [cxXHook] else [],
    commands := fun n => if n = "xcmd" then some cxXCommand else none }

/-- A channel environment in which the direct lookup and the limit-100
dialog scan both return errors while the unattempted limit-500 scan would
have found the channel. -/
def cxChanEnv : ChannelEnv := ⟨.error "boom", .error "netfail", .ok [⟨5, 99⟩]⟩

/-- A user-resolution environment in which every API method errors. -/
def cxFailEnv : ApiEnv :=
  ⟨.error "e1", .error "e2", .error "e3", .error "e4", .error "e5", .error "e6"⟩

/-- The fresh manager state: empty cache, all counters zero. -/
def ahmState0 : AhmState := ⟨fun _ => none, fun _ => 0⟩

/-- A manager state in which user 7 has already failed three times. -/
def cxBlocked : AhmState := ⟨fun _ => none, fun i => if i = 7 then 3 else 0⟩

/-- A succeeding BeforeStart hook of priority 3. -/
def wHookA : Hook := ⟨.beforeStart, 3, "ha", none⟩

/-- A failing BeforeStart hook of priority 2. -/
def wHookB : Hook := ⟨.beforeStart, 2, "hb", some "boom"⟩

/-- A succeeding BeforeStart hook of priority 1 that must never run. -/
def wHookC : Hook := ⟨.beforeStart, 1, "hc", none⟩

/-- An OnError hook that itself fails. -/
def wHookE : Hook := ⟨.onError, 0, "he", some "efail"⟩

/-- A hook state with a three-hook BeforeStart chain whose middle hook fails
and a one-hook OnError chain that also fails. -/
def wHookState : HookState :=
  fun t =>
    if t = .beforeStart then [wHookA, wHookB, wHookC]
    else if t = .onError then [wHookE] else []

/-- A command whose handler panics. -/
def wCommand : Command := ⟨"go", "", "p", .panics "pp"⟩

/-- A command registry holding only that command. -/
def wCmds : Cmds := fun n => if n = "go" then some wCommand else none

/-- The empty hook state (every chain succeeds vacuously). -/
def emptyHookState : HookState := fun _ => []

/-- Extract the registry of a successful registration (the empty dispatcher
stands in for the impossible error case of the concrete scenarios below). -/
def regOrEmpty : Except RegexError Registry → Registry
  | .ok r => r
  | .error _ => emptyDispatcher

/-- Extract the state of a successful unload (the supplied default stands in
for the impossible error case of the concrete scenarios below). -/
def pmOk (d : PMState) : Except String PMState → PMState
  | .ok st => st
  | .error _ => d

/-! ## Characterization of the dispatch loop -/

/-- With a never-cancelled context the dispatch loop returns nil, invokes
exactly the matching listeners in list order, and logs exactly the matching
listeners whose handlers fail. -/
theorem dispatchLoop_none_spec (ev : Event) :
    ∀ (ls : List Listener) (k : Nat),
      dispatchLoop none ev k ls =
        (⟨.ok (), (ls.filter (fun l => shouldHandleEvent l ev)).map (fun l => l.name),
          (ls.filter (fun l => shouldHandleEvent l ev && l.handlerFails)).map
            (fun l => l.name)⟩,
         k + ls.length) := by
  intro ls
  induction ls with
  | nil => intro k; simp [dispatchLoop]
  | cons l rest ih =>
      intro k
      simp only [dispatchLoop, ctxDone]
      rw [ih (k + 1)]
      by_cases h : shouldHandleEvent l ev
      · by_cases hf : l.handlerFails <;>
          simp [h, hf, List.filter_cons, List.length_cons] <;> omega
      · simp [h, List.filter_cons, List.length_cons]; omega

/-- When the cancellation point lies at or beyond the end of the loop the
dispatch loop behaves exactly like the uncancelled one. -/
theorem dispatchLoop_some_ge (ev : Event) (c : Nat) :
    ∀ (ls : List Listener) (k : Nat), k + ls.length ≤ c →
      dispatchLoop (some c) ev k ls =
        (⟨.ok (), (ls.filter (fun l => shouldHandleEvent l ev)).map (fun l => l.name),
          (ls.filter (fun l => shouldHandleEvent l ev && l.handlerFails)).map
            (fun l => l.name)⟩,
         k + ls.length) := by
  intro ls
  induction ls with
  | nil => intro k _; simp [dispatchLoop]
  | cons l rest ih =>
      intro k hk
      simp only [List.length_cons] at hk
      have hdone : ctxDone (some c) k = false := by
        simp [ctxDone]; omega
      simp only [dispatchLoop, hdone, Bool.false_eq_true, if_false]
      rw [ih (k + 1) (by omega)]
      by_cases h : shouldHandleEvent l ev
      · by_cases hf : l.handlerFails <;>
          simp [h, hf, List.filter_cons, List.length_cons] <;> omega
      · simp [h, List.filter_cons, List.length_cons]; omega

/-- When the cancellation point falls inside the nonempty loop the dispatch
loop returns the cancellation error, after processing exactly the listeners
before the cancellation point. -/
theorem dispatchLoop_some_lt (ev : Event) (c : Nat) :
    ∀ (ls : List Listener) (k : Nat), c < k + ls.length → 0 < ls.length →
      dispatchLoop (some c) ev k ls =
        (⟨.error .cancelled,
          ((ls.take (c - k)).filter (fun l => shouldHandleEvent l ev)).map
            (fun l => l.name),
          ((ls.take (c - k)).filter (fun l => shouldHandleEvent l ev && l.handlerFails)).map
            (fun l => l.name)⟩,
         max k c) := by
  intro ls
  induction ls with
  | nil => intro k _ h0; simp at h0
  | cons l rest ih =>
      intro k hk _
      simp only [List.length_cons] at hk
      by_cases hck : c ≤ k
      · have h0 : c - k = 0 := by omega
        have hmax : max k c = k := by omega
        have hdone : ctxDone (some c) k = true := by
          simp [ctxDone]; omega
        simp [dispatchLoop, hdone, h0, hmax]
      · have hdone : ctxDone (some c) k = false := by
          simp [ctxDone]; omega
        have hrest : 0 < rest.length := by
          rcases Nat.eq_zero_or_pos rest.length with hr | hr
          · omega
          · exact hr
        have hmax : max (k + 1) c = max k c := by omega
        have htake : (l :: rest).take (c - k) = l :: rest.take (c - (k + 1)) := by
          have hsucc : c - k = (c - (k + 1)) + 1 := by omega
          rw [hsucc, List.take_succ_cons]
        simp only [dispatchLoop, hdone, Bool.false_eq_true, if_false]
        rw [ih (k + 1) (by omega) hrest]
        by_cases h : shouldHandleEvent l ev
        · by_cases hf : l.handlerFails <;>
            simp [h, hf, htake, hmax, List.filter_cons]
        · simp [h, htake, hmax, List.filter_cons]

/-- Every name in a dispatch trace is the name of a matching listener of the
dispatched list. -/
theorem mem_dispatchLoop_trace (cancelAt : Option Nat) (ev : Event) :
    ∀ (ls : List Listener) (k : Nat) (n : String),
      n ∈ (dispatchLoop cancelAt ev k ls).1.trace →
      ∃ l ∈ ls, shouldHandleEvent l ev = true ∧ l.name = n := by
  intro ls
  induction ls with
  | nil => intro k n h; simp [dispatchLoop] at h
  | cons l rest ih =>
      intro k n h
      simp only [dispatchLoop] at h
      by_cases hd : ctxDone cancelAt k
      · simp [hd] at h
      · simp only [hd, Bool.false_eq_true, if_false] at h
        by_cases hs : shouldHandleEvent l ev
        · simp only [hs, if_true, List.mem_cons] at h
          rcases h with h | h
          · exact ⟨l, List.mem_cons_self l rest, hs, h.symm⟩
          · obtain ⟨l', hl', hm, hn⟩ := ih (k + 1) n h
            exact ⟨l', List.mem_cons_of_mem l hl', hm, hn⟩
        · simp only [hs, if_false] at h
          obtain ⟨l', hl', hm, hn⟩ := ih (k + 1) n h
          exact ⟨l', List.mem_cons_of_mem l hl', hm, hn⟩

/-! ## Order properties of addListener -/

/-- The first element dropWhile keeps falsifies the predicate. -/
theorem dropWhile_head_false {α} (p : α → Bool) (l : List α) (a : α) (t : List α)
    (h : l.dropWhile p = a :: t) : p a = false := by
  have h2 := List.head?_dropWhile_not p l
  rw [h] at h2
  simpa using h2

/-- bubbleInsert yields a permutation of pushing the new listener in front:
no existing entry is dropped and exactly one entry is added. -/
theorem bubbleInsert_perm (ls : List Listener) (x : Listener) :
    (bubbleInsert ls x).Perm (x :: ls) := by
  unfold bubbleInsert
  have hsplit :
      (ls.reverse.dropWhile (fun a => decide (a.priority < x.priority))).reverse ++
        (ls.reverse.takeWhile (fun a => decide (a.priority < x.priority))).reverse = ls := by
    rw [← List.reverse_append, List.takeWhile_append_dropWhile, List.reverse_reverse]
  have hperm :
      ((ls.reverse.dropWhile (fun a => decide (a.priority < x.priority))).reverse ++
        x :: (ls.reverse.takeWhile (fun a => decide (a.priority < x.priority))).reverse).Perm
      (x :: ((ls.reverse.dropWhile (fun a => decide (a.priority < x.priority))).reverse ++
        (ls.reverse.takeWhile (fun a => decide (a.priority < x.priority))).reverse)) :=
    List.perm_middle
  rw [hsplit] at hperm
  exact hperm

/-- bubbleInsert preserves the descending-priority sortedness of the slice:
this is the re-sorting invariant of addListener. -/
theorem bubbleInsert_pairwise {ls : List Listener} {x : Listener}
    (h : ls.Pairwise prioGe) : (bubbleInsert ls x).Pairwise prioGe := by
  have hr : ls.reverse.Pairwise (fun a b => prioGe b a) := by
    rw [List.pairwise_reverse]
    exact h
  have hS : (ls.reverse.takeWhile (fun a => decide (a.priority < x.priority))).Pairwise
      (fun a b => prioGe b a) :=
    hr.sublist (List.takeWhile_sublist _)
  have hD : (ls.reverse.dropWhile (fun a => decide (a.priority < x.priority))).Pairwise
      (fun a b => prioGe b a) :=
    hr.sublist (List.dropWhile_sublist _)
  have hSD : ∀ a ∈ ls.reverse.takeWhile (fun a => decide (a.priority < x.priority)),
      ∀ b ∈ ls.reverse.dropWhile (fun a => decide (a.priority < x.priority)),
      prioGe b a := by
    have hsplit := List.takeWhile_append_dropWhile
      (p := fun a : Listener => decide (a.priority < x.priority)) (l := ls.reverse)
    have := (List.pairwise_append.mp (by rw [hsplit]; exact hr)).2.2
    exact this
  have hSx : ∀ b ∈ ls.reverse.takeWhile (fun a => decide (a.priority < x.priority)),
      prioGe x b := by
    intro b hb
    have := List.mem_takeWhile_imp hb
    simp only [decide_eq_true_eq] at this
    exact le_of_lt this
  have hDx : ∀ a ∈ ls.reverse.dropWhile (fun a => decide (a.priority < x.priority)),
      prioGe a x := by
    intro a ha
    cases hd : ls.reverse.dropWhile (fun a => decide (a.priority < x.priority)) with
    | nil => rw [hd] at ha; simp at ha
    | cons h0 t =>
        have hh0 : (fun a : Listener => decide (a.priority < x.priority)) h0 = false :=
          dropWhile_head_false (fun a : Listener => decide (a.priority < x.priority))
            ls.reverse h0 t hd
        simp only [decide_eq_false_iff_not, not_lt] at hh0
        rw [hd] at ha hD
        rcases List.mem_cons.mp ha with rfl | hat
        · exact hh0
        · have := (List.pairwise_cons.mp hD).1 a hat
          exact le_trans hh0 this
  unfold bubbleInsert
  rw [List.pairwise_append]
  refine ⟨?_, ?_, ?_⟩
  · rw [List.pairwise_reverse]
    exact hD
  · rw [List.pairwise_cons]
    constructor
    · intro b hb
      exact hSx b (List.mem_reverse.mp hb)
    · rw [List.pairwise_reverse]
      exact hS
  · intro a ha b hb
    have haD := List.mem_reverse.mp ha
    rcases List.mem_cons.mp hb with rfl | hbS
    · exact hDx a haD
    · exact hSD b (List.mem_reverse.mp hbS) a haD

/-- addListener preserves per-category descending-priority sortedness. -/
theorem addListener_sorted {ed : Registry} {x : Listener}
    (h : sortedRegistry ed) : sortedRegistry (addListener ed x) := by
  intro t
  unfold addListener
  by_cases ht : t = x.type
  · simp only [ht, if_pos rfl]
    exact bubbleInsert_pairwise (h x.type)
  · simp only [if_neg ht]
    exact h t

/-- A registry built from any sequence of addListener registrations starting
from the empty dispatcher is sorted by priority descending (ties keeping
insertion order) in every category. -/
theorem foldl_addListener_sorted :
    ∀ (regs : List Listener) (ed : Registry), sortedRegistry ed →
      sortedRegistry (regs.foldl addListener ed) := by
  intro regs
  induction regs with
  | nil => intro ed h; exact h
  | cons x rest ih =>
      intro ed h
      exact ih (addListener ed x) (addListener_sorted h)

/-- In a pairwise-ordered list, two members not related the other way around
occur in relation order: the pair is a sublist. -/
theorem pair_sublist_of_pairwise {α} {R : α → α → Prop} :
    ∀ {l : List α} {a b : α}, l.Pairwise R → a ∈ l → b ∈ l → ¬R b a → a ≠ b →
      List.Sublist [a, b] l := by
  intro l
  induction l with
  | nil => intro a b _ ha _ _ _; simp at ha
  | cons x t ih =>
      intro a b hp ha hb hnR hne
      have hx := (List.pairwise_cons.mp hp).1
      have ht := (List.pairwise_cons.mp hp).2
      rcases List.mem_cons.mp ha with rfl | hat
      · rcases List.mem_cons.mp hb with rfl | hbt
        · exact absurd rfl hne
        · exact List.Sublist.cons₂ a (List.singleton_sublist.mpr hbt)
      · rcases List.mem_cons.mp hb with rfl | hbt
        · exact absurd (hx a hat) hnR
        · exact List.Sublist.cons x (ih ht hat hbt hnR hne)

/-! ## Claim C1: duplicate-name behavior of registration -/

/-- C1 counterexample: registering a second message listener with the same
(category, name) pair does not fail — both registrations succeed and the
message category afterwards holds two entries named dup, so registration
neither fails with a duplicate-name error nor requires a fresh pair. -/
theorem c1_duplicate_registration_succeeds :
    (registerMessageListener (fun _ => none)
        (regOrEmpty (registerMessageListener (fun _ => none) emptyDispatcher "dup" "" false 0))
        "dup" "" false 0).isOk = true ∧
    ((regOrEmpty (registerMessageListener (fun _ => none)
        (regOrEmpty (registerMessageListener (fun _ => none) emptyDispatcher "dup" "" false 0))
        "dup" "" false 0)) .message).map (fun l => l.name) = ["dup", "dup"] := by
  constructor <;> rfl

/-- C1 as amended: registration performs no duplicate-name check at all.
RegisterMessageListener fails exactly when a nonempty pattern fails to
compile (and then touches no state); every successful registration — even
one whose (category, name) pair already exists — adds exactly one new
message listener with the requested name and priority, keeping all existing
entries of every category. -/
theorem c1_register_no_duplicate_check (cmp : String → Option (String → Bool))
    (ed : Registry) (nm pat : String) (hf : Bool) (pr : Int) :
    ((registerMessageListener cmp ed nm pat hf pr = .error .badPattern) ↔
      (pat ≠ "" ∧ cmp pat = none)) ∧
    (∀ st', registerMessageListener cmp ed nm pat hf pr = .ok st' →
      (∃ l : Listener, l.type = .message ∧ l.name = nm ∧ l.priority = pr ∧
        (st' .message).Perm (l :: ed .message)) ∧
      (∀ t, t ≠ .message → st' t = ed t)) := by
  have haddmsg : ∀ (l : Listener), l.type = .message →
      ((addListener ed l) .message).Perm (l :: ed .message) := by
    intro l hl
    simp only [addListener, if_pos hl.symm]
    exact bubbleInsert_perm _ _
  have haddother : ∀ (l : Listener), l.type = .message →
      ∀ t, t ≠ .message → (addListener ed l) t = ed t := by
    intro l hl t ht
    simp only [addListener]
    rw [if_neg]
    intro he
    exact ht (he.trans hl)
  unfold registerMessageListener
  by_cases hpat : pat = ""
  · subst hpat
    rw [if_neg (by simp)]
    refine ⟨by simp, ?_⟩
    intro st' hst
    injection hst with hst'
    subst hst'
    exact ⟨⟨_, rfl, rfl, rfl, haddmsg _ rfl⟩, haddother _ rfl⟩
  · rw [if_pos hpat]
    cases hc : cmp pat with
    | none =>
        refine ⟨by simp [hpat], ?_⟩
        intro st' hst
        exact absurd hst (by simp)
    | some rx =>
        refine ⟨by simp [hc], ?_⟩
        intro st' hst
        injection hst with hst'
        subst hst'
        exact ⟨⟨_, rfl, rfl, rfl, haddmsg _ rfl⟩, haddother _ rfl⟩

/-- C1 witness: at a concrete uncompilable pattern the registration fails
with the pattern error, by the amended theorem. -/
theorem c1_register_no_duplicate_check_witness :
    registerMessageListener (fun _ => none) emptyDispatcher "n" "bad" false 0 =
      .error .badPattern :=
  (c1_register_no_duplicate_check (fun _ => none) emptyDispatcher "n" "bad" false 0).1.mpr
    ⟨by decide, rfl⟩

/-! ## Claim C2: direction default when neither flag is set -/

/-- C2 counterexample: a message listener whose filter sets neither direction
flag is invoked for an incoming message — at this concrete incoming event the
listener matches and its handler runs, so the bus does not default to
outgoing-only. -/
theorem c2_incoming_invoked_without_direction_flags :
    shouldHandleEvent cxListener (.message cxIncoming) = true ∧
    (dispatchToListeners none (addListener emptyDispatcher cxListener) .message
      (.message cxIncoming)).trace = ["nodir"] := by
  constructor <;> rfl

/-- C2 as amended: when a filter sets neither the outgoing nor the incoming
flag, the direction of the message is ignored entirely: the filter decision
reduces to the group/private selection alone, so matching listeners are
invoked for outgoing and incoming messages alike. -/
theorem c2_no_direction_flags_passes_both (f : ListenerFilter) (m : MessageEvent)
    (ho : f.outgoing = false) (hi : f.incoming = false) :
    passesFilter f (.message m) =
      ((!f.groupsOnly || decide (m.chatID < 0)) &&
       (!f.privatesOnly || !decide (m.chatID < 0))) := by
  by_cases hg : f.groupsOnly <;> by_cases hp : f.privatesOnly <;>
    by_cases hc : m.chatID < 0 <;>
      simp [passesFilter, ho, hi, hg, hp, hc]

/-- C2 witness: the amended theorem applied at the concrete no-flags filter
and the concrete incoming message. -/
theorem c2_no_direction_flags_passes_both_witness :
    passesFilter cxFilter (.message cxIncoming) =
      ((!cxFilter.groupsOnly || decide (cxIncoming.chatID < 0)) &&
       (!cxFilter.privatesOnly || !decide (cxIncoming.chatID < 0))) :=
  c2_no_direction_flags_passes_both cxFilter cxIncoming rfl rfl

/-! ## Claim C6: listener failures versus cancellation in dispatch -/

/-- C6: dispatchToListeners returns an error exactly when the caller's
context is cancelled before the per-type listener list is exhausted; the
invoked listeners are exactly the matching ones before the cancellation
cutoff (all of them when never cancelled), independent of which handlers
fail; failing handlers are only logged.  In particular a handler error never
suppresses later listeners and never fails the dispatch call. -/
theorem c6_dispatch_error_iff_cancelled (cancelAt : Option Nat) (ed : Registry)
    (t : ListenerType) (ev : Event) :
    ((dispatchToListeners cancelAt ed t ev).result = .error .cancelled ↔
      ∃ c, cancelAt = some c ∧ c < (ed t).length) ∧
    (dispatchToListeners cancelAt ed t ev).trace =
      (((ed t).take (ctxCutoff cancelAt (ed t).length)).filter
        (fun l => shouldHandleEvent l ev)).map (fun l => l.name) ∧
    (dispatchToListeners cancelAt ed t ev).errLog =
      (((ed t).take (ctxCutoff cancelAt (ed t).length)).filter
        (fun l => shouldHandleEvent l ev && l.handlerFails)).map (fun l => l.name) := by
  unfold dispatchToListeners
  cases cancelAt with
  | none =>
      rw [dispatchLoop_none_spec]
      refine ⟨by simp, ?_, ?_⟩ <;>
        simp [ctxCutoff, List.take_length]
  | some c =>
      by_cases hc : c < (ed t).length
      · rw [dispatchLoop_some_lt ev c (ed t) 0 (by omega) (by omega)]
        refine ⟨?_, ?_, ?_⟩
        · constructor
          · intro _; exact ⟨c, rfl, hc⟩
          · intro _; rfl
        · simp [ctxCutoff]
        · simp [ctxCutoff]
      · rw [dispatchLoop_some_ge ev c (ed t) 0 (by omega)]
        refine ⟨?_, ?_, ?_⟩
        · constructor
          · intro h; exact absurd h (by simp)
          · rintro ⟨c', hc', hlt⟩
            injection hc' with he
            subst he
            exact absurd hlt hc
        · show _ = ((List.take (ctxCutoff (some c) (ed t).length) (ed t)).filter _).map _
          rw [show ctxCutoff (some c) (ed t).length = c from rfl,
            List.take_of_length_le (by omega)]
        · show _ = ((List.take (ctxCutoff (some c) (ed t).length) (ed t)).filter _).map _
          rw [show ctxCutoff (some c) (ed t).length = c from rfl,
            List.take_of_length_le (by omega)]

/-! ## Claim C9: priority ordering of dispatch -/

/-- C9: in a registry built by any sequence of registrations, a listener of
strictly higher priority is invoked before one of strictly lower priority of
the same category whenever both match a dispatched event: registration keeps
each category sorted by priority descending (ties in insertion order) and
dispatch walks that list front to back. -/
theorem c9_priority_order_dispatch (regs : List Listener) (t : ListenerType)
    (l1 l2 : Listener) (ev : Event)
    (h1 : l1 ∈ (regs.foldl addListener emptyDispatcher) t)
    (h2 : l2 ∈ (regs.foldl addListener emptyDispatcher) t)
    (hp : l2.priority < l1.priority)
    (e1 : shouldHandleEvent l1 ev = true)
    (e2 : shouldHandleEvent l2 ev = true) :
    List.Sublist [l1.name, l2.name]
      (dispatchToListeners none (regs.foldl addListener emptyDispatcher) t ev).trace := by
  have hsorted : sortedRegistry (regs.foldl addListener emptyDispatcher) :=
    foldl_addListener_sorted regs emptyDispatcher (fun _ => List.Pairwise.nil)
  have hne : l1 ≠ l2 := by
    intro he
    rw [he] at hp
    exact lt_irrefl _ hp
  have hnR : ¬prioGe l2 l1 := by
    unfold prioGe
    omega
  have hpair : List.Sublist [l1, l2] ((regs.foldl addListener emptyDispatcher) t) :=
    pair_sublist_of_pairwise (hsorted t) h1 h2 hnR hne
  have hfil := hpair.filter (fun l => shouldHandleEvent l ev)
  rw [show [l1, l2].filter (fun l => shouldHandleEvent l ev) = [l1, l2] from by
    simp [List.filter_cons, e1, e2]] at hfil
  unfold dispatchToListeners
  rw [dispatchLoop_none_spec]
  exact hfil.map (fun l => l.name)

/-- C9 witness: two concrete listeners of priorities 2 and 1 registered in
ascending order; the priority-2 listener is invoked first on a concrete
outgoing event, by the claim theorem. -/
theorem c9_priority_order_dispatch_witness :
    List.Sublist [wListenerHi.name, wListenerLo.name]
      (dispatchToListeners none ([wListenerLo, wListenerHi].foldl addListener emptyDispatcher)
        .message wOutEvent).trace :=
  c9_priority_order_dispatch [wListenerLo, wListenerHi] .message wListenerHi wListenerLo
    wOutEvent (List.mem_cons_self _ _) (List.mem_cons_of_mem _ (List.mem_cons_self _ _))
    (by norm_num [wListenerHi, wListenerLo]) rfl rfl

/-! ## Claim C10: commands fire only on outgoing messages -/

/-- C10: the command parser is registered as a message listener whose filter
sets only the outgoing flag, so for a message that is not outgoing (an
incoming message or one with no message payload) the parser listener never
matches, and dispatching such an event through a registry extended with the
parser listener never invokes the command_parser handler — hence no command
handler can run. -/
theorem c10_incoming_never_triggers_commands (pfx : String) (hf : Bool)
    (m : MessageEvent) (ed : Registry) (cancelAt : Option Nat)
    (hin : (m.message.map (fun msg => msg.out)).getD false = false)
    (hfresh : ∀ l ∈ ed .message, l.name ≠ "command_parser") :
    shouldHandleEvent (parserListener pfx hf) (.message m) = false ∧
    "command_parser" ∉
      (dispatchToListeners cancelAt (newParserRegistry pfx hf ed) .message
        (.message m)).trace := by
  have hsh : shouldHandleEvent (parserListener pfx hf) (.message m) = false := by
    cases hm : m.message with
    | none => simp [shouldHandleEvent, parserListener, parserFilter, passesFilter, hm]
    | some msg =>
        have hout : msg.out = false := by simpa [hm] using hin
        simp [shouldHandleEvent, parserListener, parserFilter, passesFilter, hm, hout]
  refine ⟨hsh, ?_⟩
  intro hmem
  obtain ⟨l, hl, hmatch, hname⟩ :=
    mem_dispatchLoop_trace cancelAt (.message m) _ 0 _ hmem
  have hreg : (newParserRegistry pfx hf ed) .message =
      bubbleInsert (ed .message) (parserListener pfx hf) := rfl
  rw [hreg] at hl
  have hl2 := ((bubbleInsert_perm (ed .message) (parserListener pfx hf)).mem_iff).mp hl
  rcases List.mem_cons.mp hl2 with rfl | hltail
  · rw [hsh] at hmatch
    exact absurd hmatch (by simp)
  · exact hfresh l hltail hname

/-- C10 witness: the claim theorem applied to the concrete incoming command
text on an otherwise empty registry. -/
theorem c10_incoming_never_triggers_commands_witness :
    shouldHandleEvent (parserListener "." false) (.message cxIncoming) = false ∧
    "command_parser" ∉
      (dispatchToListeners none (newParserRegistry "." false emptyDispatcher) .message
        (.message cxIncoming)).trace :=
  c10_incoming_never_triggers_commands "." false cxIncoming emptyDispatcher none rfl
    (by intro l hl; simp [emptyDispatcher] at hl)

/-! ## Hook-chain lemmas and Claim C7 -/

/-- A plain chain run never triggers the error phase. -/
theorem runChain_errorRuns_nil (cancelAt : Option Nat) (ht : HookType) :
    ∀ (k : Nat) (hs : List Hook), (runChain cancelAt ht k hs).errorRuns = [] := by
  intro k hs
  induction hs generalizing k with
  | nil => simp [runChain]
  | cons h rest ih =>
      simp only [runChain]
      by_cases hd : ctxDone cancelAt k
      · simp [hd]
      · cases hr : h.res with
        | none => simp [hd, hr, ih (k + 1)]
        | some e => simp [hd, hr]

/-- On the OnError phase the full executor coincides with the plain chain
run: the guard in the source makes the self-recursive error-phase call a
plain chain, which certifies the two-level definition. -/
theorem execHooksList_onError_eq_runChain (cancelAt : Option Nat) (onErr : List Hook) :
    ∀ (k : Nat) (hs : List Hook),
      execHooksList cancelAt onErr .onError k hs = runChain cancelAt .onError k hs := by
  intro k hs
  induction hs generalizing k with
  | nil => simp [execHooksList, runChain]
  | cons h rest ih =>
      simp only [execHooksList, runChain]
      by_cases hd : ctxDone cancelAt k
      · simp [hd]
      · cases hr : h.res with
        | none => simp [hd, hr, ih (k + 1)]
        | some e => simp [hd, hr]

/-- ExecuteHooksWithContext on the OnError phase equals the plain chain run
of the OnError hooks. -/
theorem executeHooks_onError_eq_runChain (cancelAt : Option Nat) (hm : HookState)
    (k : Nat) :
    executeHooksWithContext cancelAt hm .onError k =
      runChain cancelAt .onError k (hm .onError) :=
  execHooksList_onError_eq_runChain cancelAt (hm .onError) k (hm .onError)

/-- Running an uncancelled chain over a prefix of succeeding hooks invokes
each of them in order and continues with the remainder. -/
theorem execHooksList_ok_prefix (onErr : List Hook) (ht : HookType) :
    ∀ (pre : List Hook), (∀ x ∈ pre, x.res = none) → ∀ (k : Nat) (rest : List Hook),
      execHooksList none onErr ht k (pre ++ rest) =
        ⟨(execHooksList none onErr ht (k + pre.length) rest).result,
          pre.map (fun x => (ht, x.name)) ++
            (execHooksList none onErr ht (k + pre.length) rest).trace,
          (execHooksList none onErr ht (k + pre.length) rest).errorRuns,
          (execHooksList none onErr ht (k + pre.length) rest).kEnd⟩ := by
  intro pre
  induction pre with
  | nil => intro _ k rest; simp
  | cons x t ih =>
      intro hok k rest
      have hx : x.res = none := hok x (List.mem_cons_self x t)
      have ht' : ∀ y ∈ t, y.res = none := fun y hy => hok y (List.mem_cons_of_mem x hy)
      simp only [List.cons_append, execHooksList, ctxDone, Bool.false_eq_true, if_false, hx]
      simp only [List.append_eq]
      rw [ih ht' (k + 1) rest]
      have harith : k + 1 + t.length = k + (x :: t).length := by
        simp [List.length_cons]
        omega
      rw [harith]
      simp

/-- C7: when the chain of a non-error phase consists of succeeding hooks
followed by a failing one, execution invokes exactly the leading hooks and
the failing one in order (the rest of the chain is aborted), returns the
failing handler's error, and triggers the error phase exactly once with the
original phase, the failing hook's name and the error as payload — a failure
inside the error-phase chain adds no further trigger.  Moreover registration
keeps every phase's chain sorted by priority descending, so execution order
is priority order. -/
theorem c7_hook_chain_failure_semantics (hm : HookState) (ht : HookType)
    (pre : List Hook) (bad : Hook) (post : List Hook) (e : String)
    (hchain : hm ht = pre ++ bad :: post)
    (hpre : ∀ x ∈ pre, x.res = none)
    (hbad : bad.res = some e)
    (hne : ht ≠ .onError) :
    (executeHooksWithContext none hm ht 0).result = .error (.failed e) ∧
    (executeHooksWithContext none hm ht 0).trace =
      pre.map (fun x => (ht, x.name)) ++ (ht, bad.name) ::
        (runChain none .onError (pre.length + 1) (hm .onError)).trace ∧
    (executeHooksWithContext none hm ht 0).errorRuns = [⟨ht, bad.name, e⟩] ∧
    (∀ (hm2 : HookState) (h : Hook),
      ((registerHook hm2 h) h.type).Pairwise (fun a b => b.priority ≤ a.priority)) := by
  have hsorted : ∀ (hm2 : HookState) (h : Hook),
      ((registerHook hm2 h) h.type).Pairwise (fun a b => b.priority ≤ a.priority) := by
    intro hm2 h
    simp only [registerHook, if_pos rfl]
    have hs := List.sorted_mergeSort
      (fun (a b c : Hook) (hab : (fun a b : Hook => decide (b.priority ≤ a.priority)) a b)
        (hbc : (fun a b : Hook => decide (b.priority ≤ a.priority)) b c) => by
          simp at hab hbc ⊢
          omega)
      (fun (a b : Hook) => by
        simp
        omega)
      (hm2 h.type ++ [h])
    exact List.Pairwise.imp (by intro a b hb; simpa using hb) hs
  unfold executeHooksWithContext
  rw [hchain, execHooksList_ok_prefix (hm .onError) ht pre hpre 0 (bad :: post),
    Nat.zero_add]
  have hstep : execHooksList none (hm .onError) ht pre.length (bad :: post) =
      ⟨.error (.failed e),
        (ht, bad.name) :: (runChain none .onError (pre.length + 1) (hm .onError)).trace,
        ⟨ht, bad.name, e⟩ ::
          (runChain none .onError (pre.length + 1) (hm .onError)).errorRuns,
        (runChain none .onError (pre.length + 1) (hm .onError)).kEnd⟩ := by
    simp [execHooksList, ctxDone, hbad, hne]
  rw [hstep, runChain_errorRuns_nil]
  exact ⟨rfl, rfl, rfl, hsorted⟩

/-- C7 witness: a concrete three-hook chain whose middle hook fails, with a
failing on-error chain: the claim theorem applied to it. -/
theorem c7_hook_chain_failure_semantics_witness :
    (executeHooksWithContext none wHookState .beforeStart 0).result =
      .error (.failed "boom") ∧
    (executeHooksWithContext none wHookState .beforeStart 0).trace =
      [wHookA].map (fun x => (HookType.beforeStart, x.name)) ++ (HookType.beforeStart, wHookB.name) ::
        (runChain none .onError ([wHookA].length + 1) (wHookState .onError)).trace ∧
    (executeHooksWithContext none wHookState .beforeStart 0).errorRuns =
      [⟨.beforeStart, wHookB.name, "boom"⟩] ∧
    (∀ (hm2 : HookState) (h : Hook),
      ((registerHook hm2 h) h.type).Pairwise (fun a b => b.priority ≤ a.priority)) :=
  c7_hook_chain_failure_semantics wHookState .beforeStart [wHookA] wHookB [wHookC] "boom"
    rfl (by intro x hx; rcases List.mem_singleton.mp hx with rfl; rfl) rfl (by decide)

/-! ## Claim C8: command execution semantics -/

/-- C8: for a registered command, a failing BeforeCommand chain aborts with
that error before the handler is invoked and without running the AfterCommand
chain; otherwise the handler is invoked inside the recovery boundary (a panic
becomes the command-panicked error), the AfterCommand chain always runs with
the handler's error as payload, and the returned result is exactly the
handler's own error, unaffected by any AfterCommand failure. -/
theorem c8_execute_command_semantics (cancelAt : Option Nat) (hm : HookState)
    (cmds : Cmds) (nm : String) (cmd : Command)
    (hcmd : cmds nm = some cmd) :
    (∀ e, (executeHooksWithContext cancelAt hm .beforeCommand 0).result = .error e →
      executeCommand cancelAt hm cmds nm =
        ⟨some (.beforeHook e), false, none,
          (executeHooksWithContext cancelAt hm .beforeCommand 0).trace, []⟩) ∧
    ((executeHooksWithContext cancelAt hm .beforeCommand 0).result = .ok () →
      executeCommand cancelAt hm cmds nm =
        ⟨(runHandler cmd.outcome).map .handlerFailed, true, some (runHandler cmd.outcome),
          (executeHooksWithContext cancelAt hm .beforeCommand 0).trace,
          (executeHooksWithContext cancelAt hm .afterCommand
            (executeHooksWithContext cancelAt hm .beforeCommand 0).kEnd).trace⟩) ∧
    (∀ payload, cmd.outcome = .panics payload →
      runHandler cmd.outcome = some (commandPanicMsg payload)) := by
  refine ⟨?_, ?_, ?_⟩
  · intro e he
    simp only [executeCommand, hcmd, he]
  · intro hok
    simp only [executeCommand, hcmd, hok]
  · intro payload hp
    rw [hp]
    rfl

/-- C8 witness: a concrete panicking command behind an empty (vacuously
succeeding) BeforeCommand chain, by the claim theorem. -/
theorem c8_execute_command_semantics_witness :
    executeCommand none emptyHookState wCmds "go" =
      ⟨(runHandler wCommand.outcome).map .handlerFailed, true,
        some (runHandler wCommand.outcome),
        (executeHooksWithContext none emptyHookState .beforeCommand 0).trace,
        (executeHooksWithContext none emptyHookState .afterCommand
          (executeHooksWithContext none emptyHookState .beforeCommand 0).kEnd).trace⟩ :=
  (c8_execute_command_semantics none emptyHookState wCmds "go" wCommand rfl).2.1 rfl

/-! ## Claim C3: plugin unload -/

/-- C3 counterexample: unloading plugin x from a state in which x owns one
listener, one hook and one command succeeds, removes the command — but the
listener and the hook registered by x are still present afterwards, so
unload does not remove every listener and hook owned by the plugin. -/
theorem c3_unload_keeps_listeners_and_hooks :
    (unloadPlugin cxPMState "x").isOk = true ∧
    ((pmOk cxPMState (unloadPlugin cxPMState "x")).listeners .message).map
      (fun l => l.name) = ["x_listener"] ∧
    ((pmOk cxPMState (unloadPlugin cxPMState "x")).hooks .beforeCommand).map
      (fun h => h.name) = ["x_hook"] ∧
    (pmOk cxPMState (unloadPlugin cxPMState "x")).commands "xcmd" = none := by
  refine ⟨rfl, rfl, rfl, rfl⟩

/-- C3 as amended: UnloadPlugin removes exactly the commands whose owning
plugin is the unloaded one (commands of other plugins survive unchanged),
marks the plugin disabled, and leaves the event-bus listener registry and the
hook registry — including entries the plugin registered — completely
untouched. -/
theorem c3_unload_removes_only_owned_commands (st : PMState) (nm : String)
    (st' : PMState) (h : unloadPlugin st nm = .ok st') :
    (∀ n c, st.commands n = some c → c.plugin = nm → st'.commands n = none) ∧
    (∀ n c, st.commands n = some c → c.plugin ≠ nm → st'.commands n = some c) ∧
    (∀ n, st.commands n = none → st'.commands n = none) ∧
    st'.listeners = st.listeners ∧
    st'.hooks = st.hooks ∧
    st'.plugins nm = some false := by
  unfold unloadPlugin at h
  cases hp : st.plugins nm with
  | none =>
      rw [hp] at h
      exact absurd h (by simp)
  | some b =>
      rw [hp] at h
      injection h with h'
      subst h'
      refine ⟨?_, ?_, ?_, rfl, rfl, by simp⟩
      · intro n c hn hc
        simp [unregisterPluginCommands, hn, hc]
      · intro n c hn hc
        simp [unregisterPluginCommands, hn, hc]
      · intro n hn
        simp [unregisterPluginCommands, hn]

/-- C3 witness: the amended theorem applied to the concrete state owned by
plugin x; the listener registry is untouched by the unload. -/
theorem c3_unload_removes_only_owned_commands_witness :
    (pmOk cxPMState (unloadPlugin cxPMState "x")).listeners = cxPMState.listeners ∧
    (pmOk cxPMState (unloadPlugin cxPMState "x")).hooks = cxPMState.hooks :=
  ⟨(c3_unload_removes_only_owned_commands cxPMState "x"
      (pmOk cxPMState (unloadPlugin cxPMState "x")) rfl).2.2.2.1,
   (c3_unload_removes_only_owned_commands cxPMState "x"
      (pmOk cxPMState (unloadPlugin cxPMState "x")) rfl).2.2.2.2.1⟩

/-! ## Claim C4: per-strategy failure semantics of resolution -/

/-- C4 counterexample: with the direct channel lookup and the limit-100
dialog scan both returning errors, resolution of channel 5 fails and the
extended limit-500 dialog scan is never attempted — even though it would
have found the channel.  So an error in one strategy does not merely skip
that strategy, and an error is surfaced although not every strategy failed. -/
theorem c4_extended_scan_skipped_on_dialog_error :
    (getChannelPeer cxChanEnv 5).1 = .error (.channelNotFound 5) ∧
    (getChannelPeer cxChanEnv 5).2 = [.channelsGetChannels, .messagesGetDialogs 100] ∧
    ApiCall.messagesGetDialogs 500 ∉ (getChannelPeer cxChanEnv 5).2 ∧
    pickChannel cxChanEnv.dialogChats500 5 = some ⟨5, 99⟩ := by
  refine ⟨rfl, rfl, by decide, rfl⟩

/-- C4 as amended: on the user path every strategy error or miss only moves
on to the next strategy — all four strategies are attempted whenever the call
fails, and an error is surfaced exactly when every strategy failed.  On the
channel path an error in the direct lookup still lets both dialog scans run,
and the extended limit-500 scan is attempted after a successful but fruitless
limit-100 scan; but when the limit-100 dialog call itself returns an error
the extended scan is skipped and the call fails. -/
theorem c4_strategy_error_semantics (env : ApiEnv) (now : Nat) (st : AhmState)
    (uid : Int) (cenv : ChannelEnv) (cid : Int) :
    ((fetchAndCacheUser env now st uid).1.isOk = false →
      (fetchAndCacheUser env now st uid).2.2 =
        [.usersGetUsers, .messagesGetDialogs 200, .contactsGetContacts, .contactsSearch]) ∧
    ((fetchAndCacheUser env now st uid).1.isOk = false ↔
      (firstUser env.usersGetUsers = none ∧ pickUser env.dialogUsers uid = none ∧
       pickUser env.contacts uid = none ∧ pickUser env.searchUsers uid = none)) ∧
    (pickChannel cenv.channelsGetChannels cid = none →
      ApiCall.messagesGetDialogs 100 ∈ (getChannelPeer cenv cid).2) ∧
    (∀ cs, cenv.dialogChats100 = .ok cs → searchChannelInDialogs cs cid = none →
      pickChannel cenv.channelsGetChannels cid = none →
      ApiCall.messagesGetDialogs 500 ∈ (getChannelPeer cenv cid).2) ∧
    (∀ msg, cenv.dialogChats100 = .error msg →
      ApiCall.messagesGetDialogs 500 ∉ (getChannelPeer cenv cid).2) := by
  refine ⟨?_, ?_, ?_, ?_, ?_⟩
  · intro h
    cases h1 : firstUser env.usersGetUsers with
    | some u => simp [fetchAndCacheUser, Except.isOk, Except.toBool, h1] at h
    | none =>
        cases h2 : pickUser env.dialogUsers uid with
        | some u => simp [fetchAndCacheUser, Except.isOk, Except.toBool, h1, h2] at h
        | none =>
            cases h3 : pickUser env.contacts uid with
            | some u => simp [fetchAndCacheUser, Except.isOk, Except.toBool, h1, h2, h3] at h
            | none =>
                cases h4 : pickUser env.searchUsers uid with
                | some u => simp [fetchAndCacheUser, Except.isOk, Except.toBool, h1, h2, h3, h4] at h
                | none => simp [fetchAndCacheUser, Except.isOk, Except.toBool, h1, h2, h3, h4]
  · constructor
    · intro h
      cases h1 : firstUser env.usersGetUsers with
      | some u => simp [fetchAndCacheUser, Except.isOk, Except.toBool, h1] at h
      | none =>
          cases h2 : pickUser env.dialogUsers uid with
          | some u => simp [fetchAndCacheUser, Except.isOk, Except.toBool, h1, h2] at h
          | none =>
              cases h3 : pickUser env.contacts uid with
              | some u => simp [fetchAndCacheUser, Except.isOk, Except.toBool, h1, h2, h3] at h
              | none =>
                  cases h4 : pickUser env.searchUsers uid with
                  | some u => simp [fetchAndCacheUser, Except.isOk, Except.toBool, h1, h2, h3, h4] at h
                  | none => exact ⟨rfl, rfl, rfl, rfl⟩
    · rintro ⟨h1, h2, h3, h4⟩
      simp [fetchAndCacheUser, Except.isOk, Except.toBool, h1, h2, h3, h4]
  · intro h1
    cases h2 : cenv.dialogChats100 with
    | ok cs =>
        cases h3 : searchChannelInDialogs cs cid with
        | some p => simp [getChannelPeer, h1, h2, h3]
        | none =>
            cases h4 : cenv.dialogChats500 with
            | ok cs2 =>
                cases h5 : searchChannelInDialogs cs2 cid with
                | some p => simp [getChannelPeer, h1, h2, h3, h4, h5]
                | none => simp [getChannelPeer, h1, h2, h3, h4, h5]
            | error m5 => simp [getChannelPeer, h1, h2, h3, h4]
    | error m2 => simp [getChannelPeer, h1, h2]
  · intro cs h2 h3 h1
    cases h4 : cenv.dialogChats500 with
    | ok cs2 =>
        cases h5 : searchChannelInDialogs cs2 cid with
        | some p => simp [getChannelPeer, h1, h2, h3, h4, h5]
        | none => simp [getChannelPeer, h1, h2, h3, h4, h5]
    | error m5 => simp [getChannelPeer, h1, h2, h3, h4]
  · intro msg h2
    cases h1 : pickChannel cenv.channelsGetChannels cid with
    | some p => simp [getChannelPeer, h1]
    | none => simp [getChannelPeer, h1, h2]

/-- C4 witness: the amended theorem applied at the concrete environment whose
limit-100 dialog call errors — the extended scan is skipped. -/
theorem c4_strategy_error_semantics_witness :
    ApiCall.messagesGetDialogs 500 ∉ (getChannelPeer cxChanEnv 5).2 :=
  (c4_strategy_error_semantics cxFailEnv 0 ahmState0 7 cxChanEnv 5).2.2.2.2 "netfail" rfl

/-! ## Claim C5: the failure-counter circuit breaker -/

/-- Neither the cache lookup nor any caching write of the standard user
resolution path touches the failure counters. -/
theorem getUserPeer_failureCount (env : ApiEnv) (now : Nat) (st : AhmState) (uid : Int) :
    ((getUserPeer env now st uid).2.1).failureCount = st.failureCount := by
  unfold getUserPeer
  cases h : getCachedUser st now uid with
  | some u => rfl
  | none =>
      cases h1 : firstUser env.usersGetUsers with
      | some u => simp [fetchAndCacheUser, Except.isOk, Except.toBool, h1, cacheUser]
      | none =>
          cases h2 : pickUser env.dialogUsers uid with
          | some u => simp [fetchAndCacheUser, Except.isOk, Except.toBool, h1, h2, cacheUser]
          | none =>
              cases h3 : pickUser env.contacts uid with
              | some u => simp [fetchAndCacheUser, Except.isOk, Except.toBool, h1, h2, h3, cacheUser]
              | none =>
                  cases h4 : pickUser env.searchUsers uid with
                  | some u => simp [fetchAndCacheUser, Except.isOk, Except.toBool, h1, h2, h3, h4, cacheUser]
                  | none => simp [fetchAndCacheUser, Except.isOk, Except.toBool, h1, h2, h3, h4]

/-- On a cache miss the standard resolution path always issues at least one
network call (UsersGetUsers is tried first). -/
theorem getUserPeer_calls_ne_nil (env : ApiEnv) (now : Nat) (st : AhmState) (uid : Int)
    (h : getCachedUser st now uid = none) :
    (getUserPeer env now st uid).2.2 ≠ [] := by
  unfold getUserPeer
  rw [h]
  cases h1 : firstUser env.usersGetUsers with
  | some u => simp [fetchAndCacheUser, Except.isOk, Except.toBool, h1]
  | none =>
      cases h2 : pickUser env.dialogUsers uid with
      | some u => simp [fetchAndCacheUser, Except.isOk, Except.toBool, h1, h2]
      | none =>
          cases h3 : pickUser env.contacts uid with
          | some u => simp [fetchAndCacheUser, Except.isOk, Except.toBool, h1, h2, h3]
          | none =>
              cases h4 : pickUser env.searchUsers uid with
              | some u => simp [fetchAndCacheUser, Except.isOk, Except.toBool, h1, h2, h3, h4]
              | none => simp [fetchAndCacheUser, Except.isOk, Except.toBool, h1, h2, h3, h4]

/-- C5: once the failure counter of an identity reaches 3, resolution fails
fast with the too-many-failures error, leaves the state unchanged and issues
zero network calls; below the threshold a fully-failed resolution increments
the counter by exactly one and a successful resolution resets it to zero;
ClearUserCache resets the counter and drops the cached record, after which
(counter below threshold, cache miss) the next resolution issues network
calls again. -/
theorem c5_failure_counter_circuit_breaker (env : ApiEnv) (now : Nat) (st : AhmState)
    (uid : Int) (hasCh : Bool) :
    (3 ≤ st.failureCount uid →
      getUserPeerWithFallback env now st uid hasCh =
        (.error (.tooManyFailures uid), st, [])) ∧
    (st.failureCount uid < 3 →
      (getUserPeerWithFallback env now st uid hasCh).1.isOk = false →
      ((getUserPeerWithFallback env now st uid hasCh).2.1).failureCount uid =
        st.failureCount uid + 1) ∧
    ((getUserPeerWithFallback env now st uid hasCh).1.isOk = true →
      ((getUserPeerWithFallback env now st uid hasCh).2.1).failureCount uid = 0) ∧
    ((clearUserCache st uid).failureCount uid = 0 ∧
     (clearUserCache st uid).userCache uid = none) ∧
    (st.failureCount uid < 3 → getCachedUser st now uid = none →
      (getUserPeerWithFallback env now st uid hasCh).2.2 ≠ []) := by
  have hfc := getUserPeer_failureCount env now st uid
  refine ⟨?_, ?_, ?_, ?_, ?_⟩
  · intro h
    unfold getUserPeerWithFallback
    rw [if_pos h]
  · intro h3 hfail
    unfold getUserPeerWithFallback at hfail ⊢
    rw [if_neg (by omega)] at hfail ⊢
    rcases hg : getUserPeer env now st uid with ⟨res, st1, calls1⟩
    have hfc1 : st1.failureCount = st.failureCount := by
      rw [hg] at hfc
      exact hfc
    cases res with
    | ok p => simp [Except.isOk, Except.toBool, hg] at hfail
    | error er =>
        cases hCh : hasCh with
        | false => simp [hg, hCh, incrementFailureCount, hfc1]
        | true =>
            cases hp1 : pickUser env.participantUsers uid with
            | some u => simp [Except.isOk, Except.toBool, hg, hCh, hp1] at hfail
            | none =>
                cases hp2 : pickUser env.channelParticipantUsers uid with
                | some u => simp [Except.isOk, Except.toBool, hg, hCh, hp1, hp2] at hfail
                | none => simp [hg, hCh, hp1, hp2, incrementFailureCount, hfc1]
  · intro hok
    unfold getUserPeerWithFallback at hok ⊢
    by_cases hb : 3 ≤ st.failureCount uid
    · rw [if_pos hb] at hok
      simp [Except.isOk, Except.toBool] at hok
    · rw [if_neg hb] at hok ⊢
      rcases hg : getUserPeer env now st uid with ⟨res, st1, calls1⟩
      cases res with
      | ok p => simp [hg, resetFailureCount]
      | error er =>
          cases hCh : hasCh with
          | false => simp [Except.isOk, Except.toBool, hg, hCh] at hok
          | true =>
              cases hp1 : pickUser env.participantUsers uid with
              | some u => simp [hg, hCh, hp1, resetFailureCount]
              | none =>
                  cases hp2 : pickUser env.channelParticipantUsers uid with
                  | some u => simp [hg, hCh, hp1, hp2, resetFailureCount]
                  | none => simp [Except.isOk, Except.toBool, hg, hCh, hp1, hp2] at hok
  · exact ⟨by simp [clearUserCache, resetFailureCount], by simp [clearUserCache, resetFailureCount]⟩
  · intro h3 hcache
    have hcalls := getUserPeer_calls_ne_nil env now st uid hcache
    unfold getUserPeerWithFallback
    rw [if_neg (by omega)]
    rcases hg : getUserPeer env now st uid with ⟨res, st1, calls1⟩
    have hcalls1 : calls1 ≠ [] := by
      rw [hg] at hcalls
      exact hcalls
    cases res with
    | ok p => simpa [hg] using hcalls1
    | error er =>
        cases hCh : hasCh with
        | false => simpa [hg, hCh] using hcalls1
        | true =>
            cases hp1 : pickUser env.participantUsers uid with
            | some u => simp [hg, hCh, hp1]
            | none =>
                cases hp2 : pickUser env.channelParticipantUsers uid with
                | some u => simp [hg, hCh, hp1, hp2]
                | none => simp [hg, hCh, hp1, hp2]

/-- C5 witness: in the state where user 7 already failed three times, a
further resolution call fails immediately with the too-many-failures error,
leaves the state untouched, and issues zero network calls — by the claim
theorem. -/
theorem c5_failure_counter_circuit_breaker_witness :
    getUserPeerWithFallback cxFailEnv 0 cxBlocked 7 true =
      (.error (.tooManyFailures 7), cxBlocked, []) :=
  (c5_failure_counter_circuit_breaker cxFailEnv 0 cxBlocked 7 true).1 (by decide)

end NexusValet
